import Mathlib

/-
  Verification of the cachet caching service (src/src/cache.ts and
  src/src/migrations/migrationManager.ts) against its natural-language
  specification.

  The embedding models SQLite tables as Lean lists of row structures,
  JavaScript timestamps (milliseconds / seconds) as integers, and the
  fallible query layer as functions into Except.  String normalization
  (String.prototype.toUpperCase / toLowerCase) is modelled for ASCII
  characters, which covers every identifier the service handles.
-/

set_option maxRecDepth 8000

namespace Cachet

/-! ## Character / string utilities (structural, kernel-reducible) -/

/-- ASCII upper-casing of one character, as JS toUpperCase acts on ASCII. -/
def upChar (c : Char) : Char :=
  if 97 ≤ c.toNat ∧ c.toNat ≤ 122 then Char.ofNat (c.toNat - 32) else c

/-- ASCII model of String.prototype.toUpperCase (src/src/cache.ts uses
`userId.toUpperCase()` before every users-table read and write). -/
def upStr (s : String) : String := String.mk (s.data.map upChar)

/-- Boolean list-prefix test (structural recursion so that the kernel can
evaluate it on concrete endpoints). -/
def pfx : List Char → List Char → Bool
  | [], _ => true
  | _ :: _, [] => false
  | a :: as, b :: bs => a == b && pfx as bs

/-- Substring containment, modelling JS String.prototype.includes. -/
def hasSub (p : List Char) : List Char → Bool
  | [] => p.isEmpty
  | c :: tl => pfx p (c :: tl) || hasSub p tl

/-- One path segment: nonempty and free of slashes (the regex class [^/]+). -/
def oneSeg (s : List Char) : Bool := !s.isEmpty && !s.contains '/'

/-- Matches the regex ^pre[^/]+$ on an endpoint string. -/
def matchSeg (pre e : String) : Bool :=
  pfx pre.data e.data && oneSeg (e.data.drop pre.data.length)

/-- Matches the regex ^pre[^/]+suf$ on an endpoint string. -/
def matchSegSuf (pre suf e : String) : Bool :=
  let rest := e.data.drop pre.data.length
  pfx pre.data e.data
    && pfx suf.data.reverse rest.reverse
    && oneSeg (rest.take (rest.length - suf.data.length))

/-! ## Endpoint grouping and bucket-table selection (src/src/cache.ts) -/

/-- Cache.groupEndpoint (src/src/cache.ts lines 1515-1544): deterministic
classification of a raw endpoint string into a display category. -/
def groupEndpoint (e : String) : String :=
  if e == "/" || e == "/dashboard" then "Dashboard"
  else if e == "/health" then "Health Check"
  else if e == "/swagger" || pfx "/swagger".data e.data then "API Documentation"
  else if e == "/emojis" then "Emoji List"
  else if matchSeg "/emojis/" e || e == "/emojis/EMOJI_NAME" then "Emoji Data"
  else if matchSegSuf "/emojis/" "/r" e || e == "/emojis/EMOJI_NAME/r" then "Emoji Redirects"
  else if matchSeg "/users/" e || e == "/users/USER_ID" then "User Data"
  else if matchSegSuf "/users/" "/r" e || e == "/users/USER_ID/r" then "User Redirects"
  else if matchSegSuf "/users/" "/purge" e || e == "/reset" then "Cache Management"
  else if hasSub "/users/".data e.data && hasSub "/r".data e.data then "User Redirects"
  else if hasSub "/users/".data e.data then "User Data"
  else if hasSub "/emojis/".data e.data && hasSub "/r".data e.data then "Emoji Redirects"
  else if hasSub "/emojis/".data e.data then "Emoji Data"
  else "Other"

/-- Cache.selectBucketTable (src/src/cache.ts lines 1499-1510): picks the
bucket table and bucket width (seconds) for a requested window in days. -/
def selectBucketTable (days : Int) : String × Int :=
  if days ≤ 1 then ("traffic_10min", 600)
  else if days ≤ 30 then ("traffic_hourly", 3600)
  else ("traffic_daily", 86400)

/-! ## Entity store (users table, refresh queue) — src/src/cache.ts -/

/-- A row of the users table (cache.ts initDatabase: id TEXT PRIMARY KEY,
userId TEXT UNIQUE, displayName, pronouns, imageUrl, expiration INTEGER).
Generated uuid primary keys are modelled as a counter. -/
structure UserRow where
  id : Nat
  userId : String
  displayName : String
  pronouns : String
  imageUrl : String
  expiration : Int
deriving DecidableEq

/-- State owned by the Cache class that the user-facing claims touch:
the users table, the in-memory userUpdateQueue Set, and the uuid source. -/
structure EntityState where
  users : List UserRow
  userUpdateQueue : List String
  nextId : Nat
deriving DecidableEq

def emptyEntity : EntityState := ⟨[], [], 0⟩

/-- JS Set.prototype.add: appends only when absent (the queue is a set). -/
def setInsert (q : List String) (x : String) : List String :=
  if q.contains x then q else q ++ [x]

/-- The TTL in hours actually used by insertUser: the JS expression
`expirationHours || userDefaultTTL` — undefined and 0 are falsy, so both
fall back to the 7-day default of 168 hours. -/
def ttlHoursOrDefault : Option Int → Int
  | none => 168
  | some h => if h = 0 then 168 else h

/-- Milliseconds in 7 days, the user TTL and touch-refresh extension. -/
def sevenDaysMs : Int := 7 * 24 * 60 * 60 * 1000

/-- Cache.insertUser (src/src/cache.ts lines 1195-1230): upsert keyed by the
upper-cased userId; ON CONFLICT(userId) DO UPDATE SET imageUrl, expiration —
displayName and pronouns are NOT in the conflict update list.  The catch
branch (store-level I/O failure returning false) is not modelled; the db.run
upsert itself cannot violate a constraint. -/
def insertUser (st : EntityState) (nowMs : Int) (userId displayName pronouns imageUrl : String)
    (expirationHours : Option Int) : Bool × EntityState :=
  let uid := upStr userId
  let expiration := nowMs + ttlHoursOrDefault expirationHours * 3600000
  if st.users.any (fun r => r.userId == uid) then
    (true, { st with users := st.users.map (fun r =>
        if r.userId == uid then { r with imageUrl := imageUrl, expiration := expiration } else r) })
  else
    (true, { st with
      users := st.users ++ [⟨st.nextId, uid, displayName, pronouns, imageUrl, expiration⟩],
      nextId := st.nextId + 1 })

/-- Cache.getUser (src/src/cache.ts lines 1338-1385).  Looks the row up by
the upper-cased userId; an expired row is deleted — note the source passes
the RAW (non-uppercased) userId to the DELETE — and null returned; a
stale-but-live row has its stored expiration reset to now + 7 days and its
upper-cased id added to the update queue, while the RETURNED object is built
from the row as read, with the pre-extension expiration. -/
def getUser (st : EntityState) (nowMs : Int) (userId : String) : Option UserRow × EntityState :=
  match st.users.find? (fun r => r.userId == upStr userId) with
  | none => (none, st)
  | some r =>
    if r.expiration < nowMs then
      (none, { st with users := st.users.filter (fun row => !(row.userId == userId)) })
    else
      let twentyFourHoursAgo := nowMs - 24 * 60 * 60 * 1000
      let userAge := r.expiration - sevenDaysMs
      if userAge < twentyFourHoursAgo then
        (some r, { st with
          users := st.users.map (fun row =>
            if row.userId == upStr userId then { row with expiration := nowMs + sevenDaysMs } else row),
          userUpdateQueue := setInsert st.userUpdateQueue (upStr userId) })
      else
        (some r, st)

/-! ## Analytics aggregator (recordRequest) — src/src/cache.ts -/

/-- A row of a traffic bucket table (PRIMARY KEY (bucket, endpoint,
status_code)); note the key holds the RAW endpoint string, not its group. -/
structure BucketRow where
  bucket : Nat
  endpoint : String
  statusCode : Nat
  hits : Nat
  totalResponseTime : Nat
deriving DecidableEq

/-- A row of user_agent_stats (user_agent TEXT PRIMARY KEY). -/
structure UARow where
  userAgent : String
  hits : Nat
  lastSeen : Nat
deriving DecidableEq

/-- The four analytics tables written by recordRequest. -/
structure AnalyticsState where
  traffic10min : List BucketRow
  trafficHourly : List BucketRow
  trafficDaily : List BucketRow
  userAgentStats : List UARow
deriving DecidableEq

def emptyAnalytics : AnalyticsState := ⟨[], [], [], []⟩

/-- INSERT ... ON CONFLICT(bucket, endpoint, status_code) DO UPDATE SET
hits = hits + 1, total_response_time = total_response_time + respTime. -/
def upsertBucket (tbl : List BucketRow) (bucket : Nat) (endpoint : String)
    (status : Nat) (respTime : Nat) : List BucketRow :=
  if tbl.any (fun r => r.bucket == bucket && r.endpoint == endpoint && r.statusCode == status) then
    tbl.map (fun r =>
      if r.bucket == bucket && r.endpoint == endpoint && r.statusCode == status then
        { r with hits := r.hits + 1, totalResponseTime := r.totalResponseTime + respTime }
      else r)
  else tbl ++ [⟨bucket, endpoint, status, 1, respTime⟩]

/-- INSERT ... ON CONFLICT(user_agent) DO UPDATE SET hits = hits + 1,
last_seen = MAX(last_seen, now). -/
def upsertUA (tbl : List UARow) (ua : String) (nowMs : Nat) : List UARow :=
  if tbl.any (fun r => r.userAgent == ua) then
    tbl.map (fun r =>
      if r.userAgent == ua then { r with hits := r.hits + 1, lastSeen := max r.lastSeen nowMs } else r)
  else tbl ++ [⟨ua, 1, nowMs⟩]

/-- JS truthiness of an optional string: undefined and "" are falsy. -/
def jsTruthyStr : Option String → Bool
  | none => false
  | some s => !s.isEmpty

/-- Cache.recordRequest (src/src/cache.ts lines 1437-1494): computes the
aligned bucket start at all three resolutions from Date.now() and upserts
into each bucket table, keyed by the raw endpoint, then upserts the
user-agent row when the user agent is truthy.  `responseTime || 0` is 0 for
both undefined and 0.  The unused method and ipAddress parameters are
dropped. -/
def recordRequest (st : AnalyticsState) (nowMs : Nat) (endpoint : String) (statusCode : Nat)
    (userAgent : Option String) (responseTime : Option Nat) : AnalyticsState :=
  let now := nowMs / 1000
  let bucket10min := now - now % 600
  let bucketHour := now - now % 3600
  let bucketDay := now - now % 86400
  let respTime := (responseTime.getD 0)
  let st1 : AnalyticsState :=
    { traffic10min := upsertBucket st.traffic10min bucket10min endpoint statusCode respTime
      trafficHourly := upsertBucket st.trafficHourly bucketHour endpoint statusCode respTime
      trafficDaily := upsertBucket st.trafficDaily bucketDay endpoint statusCode respTime
      userAgentStats := st.userAgentStats }
  if jsTruthyStr userAgent then
    { st1 with userAgentStats := upsertUA st1.userAgentStats (userAgent.getD "") nowMs }
  else st1

/-! ## Analytics read path (getEssentialStats) — src/src/cache.ts -/

/-- Numeric parse of one dotted version component, as Number() reads the
canonical decimal components the migrations use; non-numeric text (which
Number turns into NaN, comparing as neither greater nor less) is mapped
to 0, matching the comparisons the manager performs on it. -/
def parseNatChars (l : List Char) : Option Nat :=
  match l with
  | [] => none
  | _ =>
    l.foldl (fun acc c =>
      match acc with
      | some a => if 48 ≤ c.toNat ∧ c.toNat ≤ 57 then some (a * 10 + (c.toNat - 48)) else none
      | none => none) (some 0)

/-- Split a list of characters on the dot separator ('.'). -/
def splitDots : List Char → List (List Char)
  | [] => [[]]
  | c :: rest =>
    if c == '.' then [] :: splitDots rest
    else
      match splitDots rest with
      | [] => [[c]]
      | g :: gs => (c :: g) :: gs

def versionParts (v : String) : List Nat :=
  (splitDots v.data).map (fun p => (parseNatChars p).getD 0)

/-- Componentwise comparison loop of MigrationManager.compareVersions:
missing components count as 0. -/
def cmpParts : List Nat → List Nat → Ordering
  | [], ys => if ys.any (fun y => decide (0 < y)) then Ordering.lt else Ordering.eq
  | x :: xs, [] => if 0 < x then Ordering.gt else cmpParts xs []
  | x :: xs, y :: ys =>
    if x < y then Ordering.lt else if y < x then Ordering.gt else cmpParts xs ys

/-- MigrationManager.compareVersions (migrationManager.ts lines 237-250). -/
def compareVersions (a b : String) : Ordering :=
  cmpParts (versionParts a) (versionParts b)

/-- MigrationManager.getPreviousVersion (migrationManager.ts lines 206-229):
decrement the lowest nonzero component of a three-part version. -/
def getPreviousVersion (v : String) : Option String :=
  match splitDots v.data with
  | [ma, mi, pa] =>
    let major := (parseNatChars ma).getD 0
    let minor := (parseNatChars mi).getD 0
    let patch := (parseNatChars pa).getD 0
    if 0 < patch then
      some (toString major ++ "." ++ toString minor ++ "." ++ toString (patch - 1))
    else if 0 < minor then
      some (toString major ++ "." ++ toString (minor - 1) ++ ".0")
    else if 0 < major then
      some (toString (major - 1) ++ ".0.0")
    else none
  | _ => none

/-- A row of the migrations table; applied_at timestamps are modelled by a
strictly increasing counter (Date.now() is nondecreasing; the manager
orders records by applied_at). -/
structure MigrationRecord where
  version : String
  appliedAt : Nat
  description : String
deriving DecidableEq

/-- A migration object: three-part version, description, and the up
procedure acting on the rest of the database (abstracted as σ), which may
throw. -/
structure Migration (σ : Type) where
  version : String
  description : String
  up : σ → Except String σ

/-- Database state seen by the manager: the migrations table, the rest of
the store, and the clock used for applied_at stamps. -/
structure MMState (σ : Type) where
  table : List MigrationRecord
  store : σ
  clock : Nat
deriving DecidableEq

/-- SELECT version, applied_at FROM migrations ORDER BY applied_at DESC
LIMIT 1 — the record with the greatest applied_at (later row wins ties). -/
def getLastApplied : List MigrationRecord → Option MigrationRecord
  | [] => none
  | r :: rest =>
    match getLastApplied rest with
    | none => some r
    | some best => if best.appliedAt ≥ r.appliedAt then some best else some r

/-- SELECT COUNT(*) FROM migrations WHERE version = ? — applied iff > 0. -/
def isMigrationApplied (table : List MigrationRecord) (v : String) : Bool :=
  table.any (fun r => r.version == v)

/-- INSERT INTO migrations (version, applied_at, description). -/
def recordMigration {σ : Type} (st : MMState σ) (v desc : String) : MMState σ :=
  { st with table := st.table ++ [⟨v, st.clock, desc⟩], clock := st.clock + 1 }

/-- Stable insertion step for the semver sort of the migrations list. -/
def insertByVersion {σ : Type} (m : Migration σ) : List (Migration σ) → List (Migration σ)
  | [] => [m]
  | x :: xs =>
    if compareVersions m.version x.version = Ordering.lt then m :: x :: xs
    else x :: insertByVersion m xs

/-- [...this.migrations].sort(compareVersions) — a stable sort by version. -/
def sortMigrations {σ : Type} (l : List (Migration σ)) : List (Migration σ) :=
  l.foldr insertByVersion []

/-- The result object of MigrationManager.runMigrations. -/
structure MigrationRunResult where
  success : Bool
  migrationsApplied : Nat
  lastAppliedVersion : Option String
  error : Option String
deriving DecidableEq

/-- Loop accumulator: db state, count of migrations applied this run, and
the evolving lastAppliedVersion variable. -/
structure LoopAcc (σ : Type) where
  st : MMState σ
  applied : Nat
  lastV : Option String

/-- The for-loop of runMigrations (migrationManager.ts lines 139-183) over
the sorted migrations.  A throwing up() aborts the loop: its transaction
(up + recordMigration) rolls back, leaving the db state as it was before
that migration, and the error escapes to the surrounding catch. -/
def runLoop {σ : Type} (currentVersion : String) :
    List (Migration σ) → LoopAcc σ → Except (String × MMState σ) (LoopAcc σ)
  | [], acc => Except.ok acc
  | m :: rest, acc =>
    if isMigrationApplied acc.st.table m.version then
      runLoop currentVersion rest acc
    else if compareVersions m.version currentVersion = Ordering.gt then
      runLoop currentVersion rest acc
    else if jsTruthyStr acc.lastV && !(compareVersions m.version (acc.lastV.getD "") == Ordering.gt) then
      runLoop currentVersion rest acc
    else
      match m.up acc.st.store with
      | Except.error e => Except.error (e, acc.st)
      | Except.ok store1 =>
        let st1 := recordMigration { acc.st with store := store1 } m.version m.description
        runLoop currentVersion rest ⟨st1, acc.applied + 1, some m.version⟩

/-- The first-run special case (migrationManager.ts lines 120-136): when no
migration record exists (JS-falsy lastAppliedVersion), record a virtual
migration for the previous version when one can be derived. -/
def virtualStep {σ : Type} (currentVersion : String) (st : MMState σ) :
    MMState σ × Option String :=
  let lastV0 := (getLastApplied st.table).map (fun r => r.version)
  if jsTruthyStr lastV0 then (st, lastV0)
  else
    match getPreviousVersion currentVersion with
    | some pv => (recordMigration st pv "Virtual migration for existing installation", some pv)
    | none => (st, lastV0)

/-- MigrationManager.runMigrations (migrationManager.ts lines 101-199):
sort, derive lastAppliedVersion (with the virtual-record heuristic), run
the loop; a thrown error is caught and returned as success=false with
migrationsApplied reset to 0 — it is not re-thrown. -/
def managerRunMigrations {σ : Type} (currentVersion : String) (migs : List (Migration σ))
    (st0 : MMState σ) : MigrationRunResult × MMState σ :=
  let sorted := sortMigrations migs
  let p := virtualStep currentVersion st0
  match runLoop currentVersion sorted ⟨p.1, 0, p.2⟩ with
  | Except.ok acc =>
    ({ success := true, migrationsApplied := acc.applied,
       lastAppliedVersion := acc.lastV, error := none }, acc.st)
  | Except.error (e, st) =>
    ({ success := false, migrationsApplied := 0,
       lastAppliedVersion := none, error := some e }, st)

theorem insertUser_fresh_users (st : EntityState) (nowMs : Int) (uid dn pr im : String)
    (eh : Option Int) (hfresh : st.users.any (fun r => r.userId == upStr uid) = false) :
    (insertUser st nowMs uid dn pr im eh).2 =
      { st with
        users := st.users ++
          [⟨st.nextId, upStr uid, dn, pr, im, nowMs + ttlHoursOrDefault eh * 3600000⟩],
        nextId := st.nextId + 1 } := by
  simp [insertUser, hfresh]

theorem insertUser_conflict_users (st : EntityState) (nowMs : Int) (uid dn pr im : String)
    (eh : Option Int) (hhit : st.users.any (fun r => r.userId == upStr uid) = true) :
    (insertUser st nowMs uid dn pr im eh).2 =
      { st with
        users := st.users.map (fun r =>
          if r.userId == upStr uid then
            { r with imageUrl := im, expiration := nowMs + ttlHoursOrDefault eh * 3600000 }
          else r) } := by
  simp [insertUser, hhit]

theorem find?_userId_map_exp (l : List UserRow) (k : String) (e : Int) (r : UserRow)
    (h : l.find? (fun x => x.userId == k) = some r) :
    (l.map (fun x => if x.userId == k then { x with expiration := e } else x)).find?
      (fun x => x.userId == k) = some { r with expiration := e } := by
  induction l with
  | nil => simp at h
  | cons a tl ih =>
    rw [List.map_cons]
    by_cases ha : (a.userId == k) = true
    · rw [List.find?_cons_of_pos (p := fun x : UserRow => x.userId == k) _ ha] at h
      have hr : a = r := Option.some.inj h
      subst hr
      rw [if_pos ha]
      exact List.find?_cons_of_pos (p := fun x : UserRow => x.userId == k) _ (by simpa using ha)
    · have ha2 : (a.userId == k) = false := by simpa using ha
      rw [List.find?_cons_of_neg (p := fun x : UserRow => x.userId == k) _ (by simp [ha2])] at h
      rw [if_neg (by simp [ha2])]
      rw [List.find?_cons_of_neg (p := fun x : UserRow => x.userId == k) _ (by simp [ha2])]
      exact ih h

theorem runLoop_all_applied {σ : Type} (cv : String) (ms : List (Migration σ)) (acc : LoopAcc σ)
    (h : ∀ m ∈ ms, isMigrationApplied acc.st.table m.version = true) :
    runLoop cv ms acc = Except.ok acc := by
  induction ms with
  | nil => rfl
  | cons m rest ih =>
    have hm := h m (List.mem_cons_self m rest)
    simp [runLoop, hm]
    exact ih (fun x hx => h x (List.mem_cons_of_mem m hx))

theorem mem_insertByVersion {σ : Type} (x m : Migration σ) (l : List (Migration σ))
    (h : x ∈ insertByVersion m l) : x = m ∨ x ∈ l := by
  induction l with
  | nil => simpa [insertByVersion] using h
  | cons a tl ih =>
    by_cases hc : compareVersions m.version a.version = Ordering.lt
    · simp [insertByVersion, hc] at h
      rcases h with h | h | h
      · exact Or.inl h
      · exact Or.inr (by simp [h])
      · exact Or.inr (List.mem_cons_of_mem a h)
    · simp [insertByVersion, hc] at h
      rcases h with h | h
      · exact Or.inr (by simp [h])
      · rcases ih h with h1 | h1
        · exact Or.inl h1
        · exact Or.inr (List.mem_cons_of_mem a h1)

theorem mem_sortMigrations {σ : Type} (x : Migration σ) (l : List (Migration σ))
    (h : x ∈ sortMigrations l) : x ∈ l := by
  induction l with
  | nil => simp [sortMigrations] at h
  | cons a tl ih =>
    have h1 : x ∈ insertByVersion a (sortMigrations tl) := h
    rcases mem_insertByVersion x a (sortMigrations tl) h1 with h2 | h2
    · simp [h2]
    · exact List.mem_cons_of_mem a (ih h2)

theorem getLastApplied_mem (t : List MigrationRecord) (r : MigrationRecord)
    (h : getLastApplied t = some r) : r ∈ t := by
  induction t with
  | nil => simp [getLastApplied] at h
  | cons a tl ih =>
    simp only [getLastApplied] at h
    cases hrec : getLastApplied tl with
    | none => rw [hrec] at h; simp at h; simp [h]
    | some best =>
      rw [hrec] at h
      by_cases hb : best.appliedAt ≥ a.appliedAt
      · simp [hb] at h
        subst h
        exact List.mem_cons_of_mem a (ih hrec)
      · simp [hb] at h
        simp [h]

theorem getLastApplied_ne_none (t : List MigrationRecord) (hne : t ≠ []) :
    getLastApplied t ≠ none := by
  cases t with
  | nil => exact absurd rfl hne
  | cons a tl =>
    simp only [getLastApplied]
    cases getLastApplied tl with
    | none => simp
    | some best => by_cases hb : best.appliedAt ≥ a.appliedAt <;> simp [hb]

/-- C6: for every requested window in days, selectBucketTable picks the
10-minute table when days <= 1, the hourly table when 1 < days <= 30, and
the daily table when days > 30. -/
theorem selectBucketTable_resolution_rule (days : Int) :
    (days ≤ 1 → selectBucketTable days = ("traffic_10min", 600)) ∧
    (1 < days → days ≤ 30 → selectBucketTable days = ("traffic_hourly", 3600)) ∧
    (30 < days → selectBucketTable days = ("traffic_daily", 86400)) := by
  refine ⟨fun h => ?_, fun h1 h2 => ?_, fun h => ?_⟩
  · rw [selectBucketTable, if_pos h]
  · rw [selectBucketTable, if_neg (by omega), if_pos h2]
  · rw [selectBucketTable, if_neg (by omega), if_neg (by omega)]

/-- C6 witness: the rule evaluated at days = 1, 10 and 90. -/
theorem selectBucketTable_resolution_rule_witness :
    ((1 : Int) ≤ 1 ∧ selectBucketTable 1 = ("traffic_10min", 600)) ∧
    ((1 : Int) < 10 ∧ (10 : Int) ≤ 30 ∧ selectBucketTable 10 = ("traffic_hourly", 3600)) ∧
    ((30 : Int) < 90 ∧ selectBucketTable 90 = ("traffic_daily", 86400)) :=
  ⟨⟨by decide, (selectBucketTable_resolution_rule 1).1 (by decide)⟩,
   ⟨by decide, by decide, (selectBucketTable_resolution_rule 10).2.1 (by decide) (by decide)⟩,
   ⟨by decide, (selectBucketTable_resolution_rule 90).2.2 (by decide)⟩⟩

/-- C4: getUser on an expired row returns absent, but the side-effect DELETE
uses the raw, non-uppercased userId: called with the lower-case variant
"u1" of the stored "U1", the expired row is NOT removed, contradicting the
claim; called with the exact stored case it is removed, exposing the
missing normalization as a slip. -/
theorem getUser_expired_case_variant_row_not_removed :
    (getUser ⟨[⟨0, "U1", "A", "p", "i", 100⟩], [], 1⟩ 200 "u1").1 = none
    ∧ (getUser ⟨[⟨0, "U1", "A", "p", "i", 100⟩], [], 1⟩ 200 "u1").2.users
        = [⟨0, "U1", "A", "p", "i", 100⟩]
    ∧ (getUser ⟨[⟨0, "U1", "A", "p", "i", 100⟩], [], 1⟩ 200 "U1").2.users = [] := by
  decide

/-- C1 counterexample: two inserts of the same externalId — the stored
displayName and pronouns come from the FIRST call, not the second, refuting
last-write-wins on displayName/pronouns. -/
theorem insertUser_second_call_displayName_cex :
    ((insertUser (insertUser emptyEntity 0 "U1" "Alice" "she/her" "img1" none).2
        5 "U1" "Bob" "he/him" "img2" none).2).users.map
        (fun r => (r.displayName, r.pronouns, r.imageUrl)) = [("Alice", "she/her", "img2")]
    ∧ ((insertUser (insertUser emptyEntity 0 "U1" "Alice" "she/her" "img1" none).2
        5 "U1" "Bob" "he/him" "img2" none).2).users.map
        (fun r => (r.displayName, r.pronouns, r.imageUrl)) ≠ [("Bob", "he/him", "img2")] := by
  decide

/-- C1 (amended): calling insertUser twice with case variants of one
externalId on a store holding no row for it yields a single stored record
whose imageUrl and expiration come from the second call while displayName
and pronouns keep the FIRST call's values (only imageUrl/expiration are
conflict-update columns). -/
theorem insertUser_upsert_conflict_columns (st : EntityState) (now1 now2 : Int)
    (id1 id2 dn1 pr1 im1 dn2 pr2 im2 : String) (eh1 eh2 : Option Int)
    (hcase : upStr id2 = upStr id1)
    (hfresh : st.users.all (fun r => !(r.userId == upStr id1)) = true) :
    ((insertUser (insertUser st now1 id1 dn1 pr1 im1 eh1).2 now2 id2 dn2 pr2 im2 eh2).2).users.filter
        (fun r => r.userId == upStr id1) =
      [⟨st.nextId, upStr id1, dn1, pr1, im2, now2 + ttlHoursOrDefault eh2 * 3600000⟩] := by
  have hnot : ∀ r ∈ st.users, (r.userId == upStr id1) = false := by
    intro r hr
    have := List.all_eq_true.mp hfresh r hr
    simpa using this
  have hany : st.users.any (fun r => r.userId == upStr id1) = false := by
    rw [List.any_eq_false]
    intro r hr
    simp [hnot r hr]
  rw [insertUser_fresh_users st now1 id1 dn1 pr1 im1 eh1 hany]
  set row1 : UserRow :=
    ⟨st.nextId, upStr id1, dn1, pr1, im1, now1 + ttlHoursOrDefault eh1 * 3600000⟩ with hrow1
  have hhit : ((st.users ++ [row1]).any (fun r => r.userId == upStr id2)) = true := by
    rw [List.any_append]
    simp [hrow1, hcase]
  rw [insertUser_conflict_users _ now2 id2 dn2 pr2 im2 eh2 (by simpa using hhit)]
  simp only [hcase, List.map_append, List.filter_append]
  have hmap : st.users.map (fun r =>
      if r.userId == upStr id1 then
        { r with imageUrl := im2, expiration := now2 + ttlHoursOrDefault eh2 * 3600000 }
      else r) = st.users := by
    have := List.map_congr_left (l := st.users)
      (f := fun r =>
        if r.userId == upStr id1 then
          { r with imageUrl := im2, expiration := now2 + ttlHoursOrDefault eh2 * 3600000 }
        else r)
      (g := id) (fun r hr => by simp [hnot r hr])
    simpa using this
  have hfil : st.users.filter (fun r => r.userId == upStr id1) = [] := by
    rw [List.filter_eq_nil_iff]
    intro r hr
    simp [hnot r hr]
  rw [hmap, hfil]
  simp [hrow1]

/-- C1 witness: the amended upsert property at a concrete store and ids. -/
theorem insertUser_upsert_conflict_columns_witness :
    upStr "u1" = upStr "U1"
    ∧ (emptyEntity.users.all (fun r => !(r.userId == upStr "U1")) = true)
    ∧ ((insertUser (insertUser emptyEntity 0 "U1" "Alice" "she/her" "img1" none).2
          5 "u1" "Bob" "he/him" "img2" none).2).users.filter
          (fun r => r.userId == upStr "U1") =
        [⟨emptyEntity.nextId, upStr "U1", "Alice", "she/her", "img2",
          5 + ttlHoursOrDefault none * 3600000⟩] :=
  ⟨by decide, by decide,
   insertUser_upsert_conflict_columns emptyEntity 0 5 "U1" "u1" "Alice" "she/her" "img1"
     "Bob" "he/him" "img2" none none (by decide) (by decide)⟩

theorem find?_append_of_none {α : Type} (p : α → Bool) (l1 l2 : List α)
    (h : l1.find? p = none) : (l1 ++ l2).find? p = l2.find? p := by
  induction l1 with
  | nil => simp
  | cons a tl ih =>
    have ha : p a = false := by
      by_contra hc
      rw [List.find?_cons_of_pos _ (by simpa using hc)] at h
      exact Option.some_ne_none a h
    rw [List.find?_cons_of_neg _ (by simp [ha])] at h
    rw [List.cons_append, List.find?_cons_of_neg _ (by simp [ha])]
    exact ih h

/-- C9 counterexample: with a pre-existing row for the externalId, insert
followed by get returns the OLD displayName and pronouns (only imageUrl is
overwritten on conflict), refuting the unconditional round trip. -/
theorem insert_get_roundtrip_preexisting_cex :
    (((getUser (insertUser ⟨[⟨0, "U1", "Old", "old/pr", "old.png", 999999999999⟩], [], 1⟩
          0 "u1" "New" "new/pr" "new.png" none).2 0 "U1").1).map
        (fun r => (r.displayName, r.pronouns, r.imageUrl))) = some ("Old", "old/pr", "new.png")
    ∧ (((getUser (insertUser ⟨[⟨0, "U1", "Old", "old/pr", "old.png", 999999999999⟩], [], 1⟩
          0 "u1" "New" "new/pr" "new.png" none).2 0 "U1").1).map
        (fun r => (r.displayName, r.pronouns, r.imageUrl))) ≠ some ("New", "new/pr", "new.png") := by
  decide

/-- C9 (amended): when the store holds no row for the externalId yet,
insertUser followed by getUser with any case variant (within the record
TTL) returns the inserted displayName, pronouns and imageUrl. -/
theorem insert_get_roundtrip_fresh (st : EntityState) (tIns tGet : Int)
    (idIns idGet dn pr im : String)
    (hcase : upStr idGet = upStr idIns)
    (hfresh : st.users.all (fun r => !(r.userId == upStr idIns)) = true)
    (hexp : tGet ≤ tIns + 168 * 3600000) :
    ((getUser (insertUser st tIns idIns dn pr im none).2 tGet idGet).1).map
      (fun r => (r.displayName, r.pronouns, r.imageUrl)) = some (dn, pr, im) := by
  have hnot : ∀ r ∈ st.users, (r.userId == upStr idIns) = false := by
    intro r hr
    have := List.all_eq_true.mp hfresh r hr
    simpa using this
  have hany : st.users.any (fun r => r.userId == upStr idIns) = false := by
    rw [List.any_eq_false]
    intro r hr
    simp [hnot r hr]
  rw [insertUser_fresh_users st tIns idIns dn pr im none hany]
  set row : UserRow :=
    ⟨st.nextId, upStr idIns, dn, pr, im, tIns + ttlHoursOrDefault none * 3600000⟩ with hrow
  have hfindpre : st.users.find? (fun r => r.userId == upStr idGet) = none := by
    rw [List.find?_eq_none]
    intro r hr
    simp [hcase, hnot r hr]
  have hfind : (st.users ++ [row]).find? (fun r => r.userId == upStr idGet) = some row := by
    rw [find?_append_of_none _ st.users [row] hfindpre]
    exact List.find?_cons_of_pos _ (by simp [hrow, hcase])
  have hnoexp : ¬ (row.expiration < tGet) := by
    simp only [hrow]
    show ¬ (tIns + ttlHoursOrDefault none * 3600000 < tGet)
    have : ttlHoursOrDefault none = 168 := rfl
    omega
  simp only [getUser, hfind, if_neg hnoexp]
  split
  · simp [hrow]
  · simp [hrow]

/-- C9 witness: the fresh round trip at a concrete store and case pair. -/
theorem insert_get_roundtrip_fresh_witness :
    upStr "U1" = upStr "u1"
    ∧ (emptyEntity.users.all (fun r => !(r.userId == upStr "u1")) = true)
    ∧ (0 : Int) ≤ 0 + 168 * 3600000
    ∧ ((getUser (insertUser emptyEntity 0 "u1" "Jo" "they/them" "jo.png" none).2 0 "U1").1).map
        (fun r => (r.displayName, r.pronouns, r.imageUrl)) = some ("Jo", "they/them", "jo.png") :=
  ⟨by decide, by decide, by decide,
   insert_get_roundtrip_fresh emptyEntity 0 0 "u1" "U1" "Jo" "they/them" "jo.png"
     (by decide) (by decide) (by decide)⟩

/-- What getUser does on a stale-but-live row: returns the row as read and
rewrites the stored expiration while enqueueing the normalized id. -/
theorem getUser_stale_eq (st : EntityState) (nowMs : Int) (uid : String) (r : UserRow)
    (hfind : st.users.find? (fun x => x.userId == upStr uid) = some r)
    (hlive : ¬ (r.expiration < nowMs))
    (hstale : r.expiration - sevenDaysMs < nowMs - 86400000) :
    getUser st nowMs uid = (some r, { st with
      users := st.users.map (fun row =>
        if row.userId == upStr uid then { row with expiration := nowMs + sevenDaysMs } else row),
      userUpdateQueue := setInsert st.userUpdateQueue (upStr uid) }) := by
  simp only [getUser, hfind]
  rw [if_neg hlive, if_pos (by omega)]

/-- What getUser does on a live row younger than the staleness threshold:
returns it and leaves the state untouched. -/
theorem getUser_live_fresh_eq (st : EntityState) (nowMs : Int) (uid : String) (r : UserRow)
    (hfind : st.users.find? (fun x => x.userId == upStr uid) = some r)
    (hlive : ¬ (r.expiration < nowMs))
    (hfresh : ¬ (r.expiration - sevenDaysMs < nowMs - 24 * 60 * 60 * 1000)) :
    getUser st nowMs uid = (some r, st) := by
  simp only [getUser, hfind]
  rw [if_neg hlive, if_neg hfresh]

/-- C5: a stale-but-live record is still returned, its stored expiration is
rewritten to now plus the full 7-day TTL (an extension), and its normalized
id is in the pending refresh set exactly once — also after a second read of
any case variant before the next 30-second drain tick. -/
theorem getUser_stale_touch_refresh_enqueue_once (st : EntityState) (now now2 : Int)
    (uid uid2 : String) (r : UserRow)
    (hfind : st.users.find? (fun x => x.userId == upStr uid) = some r)
    (hlive : ¬ (r.expiration < now))
    (hstale : r.expiration - sevenDaysMs < now - 86400000)
    (hq : st.userUpdateQueue.contains (upStr uid) = false)
    (hcase : upStr uid2 = upStr uid)
    (hn2 : now2 ≤ now + 30000) :
    (getUser st now uid).1 = some r
    ∧ ((getUser st now uid).2.users.all (fun row =>
        !(row.userId == upStr uid) || (row.expiration == now + sevenDaysMs)) = true)
    ∧ r.expiration < now + sevenDaysMs
    ∧ (getUser st now uid).2.userUpdateQueue.count (upStr uid) = 1
    ∧ ((getUser (getUser st now uid).2 now2 uid2).1).isSome = true
    ∧ (getUser (getUser st now uid).2 now2 uid2).2.userUpdateQueue.count (upStr uid) = 1 := by
  have hsd : sevenDaysMs = 604800000 := rfl
  have hget1 := getUser_stale_eq st now uid r hfind hlive hstale
  have hqueue : (setInsert st.userUpdateQueue (upStr uid)).count (upStr uid) = 1 := by
    have hmem : upStr uid ∉ st.userUpdateQueue := by
      intro hmem
      rw [List.contains_eq_any_beq, List.any_eq_false] at hq
      exact (by simpa using hq (upStr uid) hmem : False)
    rw [setInsert, if_neg (by simpa [List.contains_eq_any_beq, List.any_eq_false] using hq)]
    rw [List.count_append]
    simp [List.count_eq_zero.mpr hmem]
  have hall : ((getUser st now uid).2.users.all (fun row =>
      !(row.userId == upStr uid) || (row.expiration == now + sevenDaysMs)) = true) := by
    rw [hget1]
    rw [List.all_map]
    rw [List.all_eq_true]
    intro row hrow
    by_cases hk : (row.userId == upStr uid) = true
    · simp [Function.comp, hk]
    · simp only [Bool.not_eq_true] at hk
      simp [Function.comp, hk]
  have hfind2 : ((getUser st now uid).2).users.find? (fun x => x.userId == upStr uid2)
      = some { r with expiration := now + sevenDaysMs } := by
    rw [hget1]
    simp only [hcase]
    exact find?_userId_map_exp st.users (upStr uid) (now + sevenDaysMs) r hfind
  have hnoexp2 : ¬ (now + sevenDaysMs < now2) := by omega
  have hnostale2 : ¬ (now + sevenDaysMs - sevenDaysMs < now2 - 24 * 60 * 60 * 1000) := by
    omega
  have hget2 : getUser (getUser st now uid).2 now2 uid2
      = (some { r with expiration := now + sevenDaysMs }, (getUser st now uid).2) :=
    getUser_live_fresh_eq _ now2 uid2 _ hfind2 (by exact hnoexp2) (by exact hnostale2)
  refine ⟨by rw [hget1], hall, by omega, ?_, ?_, ?_⟩
  · rw [hget1]
    exact hqueue
  · rw [hget2]
    simp
  · rw [hget2]
    rw [hget1]
    exact hqueue

/-- C5 witness: the touch-refresh-and-enqueue-once property at a concrete
stale record read twice with two case variants. -/
theorem getUser_stale_touch_refresh_enqueue_once_witness :
    (⟨[⟨0, "U1", "A", "p", "i", 604800000⟩], [], 1⟩ : EntityState).users.find?
        (fun x => x.userId == upStr "u1") = some ⟨0, "U1", "A", "p", "i", 604800000⟩
    ∧ ¬ ((604800000 : Int) < 100000000)
    ∧ (604800000 : Int) - sevenDaysMs < 100000000 - 86400000
    ∧ (([] : List String).contains (upStr "u1") = false)
    ∧ upStr "U1" = upStr "u1"
    ∧ (100001000 : Int) ≤ 100000000 + 30000
    ∧ ((getUser ⟨[⟨0, "U1", "A", "p", "i", 604800000⟩], [], 1⟩ 100000000 "u1").1
        = some ⟨0, "U1", "A", "p", "i", 604800000⟩
      ∧ ((getUser ⟨[⟨0, "U1", "A", "p", "i", 604800000⟩], [], 1⟩ 100000000 "u1").2.users.all
          (fun row => !(row.userId == upStr "u1") || (row.expiration == 100000000 + sevenDaysMs)) = true)
      ∧ (604800000 : Int) < 100000000 + sevenDaysMs
      ∧ (getUser ⟨[⟨0, "U1", "A", "p", "i", 604800000⟩], [], 1⟩ 100000000 "u1").2.userUpdateQueue.count
          (upStr "u1") = 1
      ∧ ((getUser (getUser ⟨[⟨0, "U1", "A", "p", "i", 604800000⟩], [], 1⟩ 100000000 "u1").2
          100001000 "U1").1).isSome = true
      ∧ (getUser (getUser ⟨[⟨0, "U1", "A", "p", "i", 604800000⟩], [], 1⟩ 100000000 "u1").2
          100001000 "U1").2.userUpdateQueue.count (upStr "u1") = 1) :=
  ⟨by decide, by decide, by decide, by decide, by decide, by decide,
   getUser_stale_touch_refresh_enqueue_once ⟨[⟨0, "U1", "A", "p", "i", 604800000⟩], [], 1⟩
     100000000 100001000 "u1" "U1" ⟨0, "U1", "A", "p", "i", 604800000⟩
     (by decide) (by decide) (by decide) (by decide) (by decide) (by decide)⟩

/-- C10: on a touch-refresh read the record handed back carries the
pre-extension expiration while every stored row for that id now holds
now + 7 days — and the two values provably differ. -/
theorem getUser_touch_refresh_returns_stale_expiration (st : EntityState) (now : Int)
    (uid : String) (r : UserRow)
    (hfind : st.users.find? (fun x => x.userId == upStr uid) = some r)
    (hlive : ¬ (r.expiration < now))
    (hstale : r.expiration - sevenDaysMs < now - 86400000) :
    (getUser st now uid).1 = some r
    ∧ ((getUser st now uid).2.users.all (fun row =>
        !(row.userId == upStr uid) || (row.expiration == now + sevenDaysMs)) = true)
    ∧ r.expiration ≠ now + sevenDaysMs := by
  have hsd : sevenDaysMs = 604800000 := rfl
  have hget1 := getUser_stale_eq st now uid r hfind hlive hstale
  refine ⟨by rw [hget1], ?_, by omega⟩
  rw [hget1]
  rw [List.all_map]
  rw [List.all_eq_true]
  intro row hrow
  by_cases hk : (row.userId == upStr uid) = true
  · simp [Function.comp, hk]
  · simp only [Bool.not_eq_true] at hk
    simp [Function.comp, hk]

/-- C10 witness: returned-versus-stored expiration disagreement at a
concrete stale record. -/
theorem getUser_touch_refresh_returns_stale_expiration_witness :
    (⟨[⟨1, "U2", "B", "q", "j", 604800000⟩], [], 2⟩ : EntityState).users.find?
        (fun x => x.userId == upStr "U2") = some ⟨1, "U2", "B", "q", "j", 604800000⟩
    ∧ ¬ ((604800000 : Int) < 200000000)
    ∧ (604800000 : Int) - sevenDaysMs < 200000000 - 86400000
    ∧ ((getUser ⟨[⟨1, "U2", "B", "q", "j", 604800000⟩], [], 2⟩ 200000000 "U2").1
        = some ⟨1, "U2", "B", "q", "j", 604800000⟩
      ∧ ((getUser ⟨[⟨1, "U2", "B", "q", "j", 604800000⟩], [], 2⟩ 200000000 "U2").2.users.all
          (fun row => !(row.userId == upStr "U2") || (row.expiration == 200000000 + sevenDaysMs)) = true)
      ∧ (604800000 : Int) ≠ 200000000 + sevenDaysMs) :=
  ⟨by decide, by decide, by decide,
   getUser_touch_refresh_returns_stale_expiration ⟨[⟨1, "U2", "B", "q", "j", 604800000⟩], [], 2⟩
     200000000 "U2" ⟨1, "U2", "B", "q", "j", 604800000⟩ (by decide) (by decide) (by decide)⟩

/-- C2 counterexample: two recordRequest calls with distinct user endpoints
in the same 10-minute window leave TWO rows (keyed by raw endpoint) whose
group is User Data with status 200 — not one row with hits=2: every row has
hits=1. -/
theorem recordRequest_bucket_rows_cex :
    ((recordRequest (recordRequest emptyAnalytics 600000 "/users/U1" 200 (some "curl/8.0") (some 50))
        900000 "/users/U2" 200 (some "curl/8.0") (some 150)).traffic10min.countP
        (fun r => groupEndpoint r.endpoint == "User Data" && r.statusCode == 200)) = 2
    ∧ ((recordRequest (recordRequest emptyAnalytics 600000 "/users/U1" 200 (some "curl/8.0") (some 50))
        900000 "/users/U2" 200 (some "curl/8.0") (some 150)).traffic10min.all
        (fun r => r.hits == 1)) = true := by
  decide

/-- C2 (amended): the two calls produce two 10-minute rows — one per raw
endpoint, each with hits 1, all in the shared bucket — whose User-Data /
status-200 rows sum to hits 2 and totalResponseTime 200, and one user-agent
row with hits 2. -/
theorem recordRequest_two_user_endpoints (t1 t2 : Nat)
    (hwin : t1 / 1000 - t1 / 1000 % 600 = t2 / 1000 - t2 / 1000 % 600) :
    ((recordRequest (recordRequest emptyAnalytics t1 "/users/U1" 200 (some "curl/8.0") (some 50))
        t2 "/users/U2" 200 (some "curl/8.0") (some 150)).traffic10min.countP
        (fun r => groupEndpoint r.endpoint == "User Data" && r.statusCode == 200)) = 2
    ∧ ((recordRequest (recordRequest emptyAnalytics t1 "/users/U1" 200 (some "curl/8.0") (some 50))
        t2 "/users/U2" 200 (some "curl/8.0") (some 150)).traffic10min.all
        (fun r => r.hits == 1)) = true
    ∧ (((recordRequest (recordRequest emptyAnalytics t1 "/users/U1" 200 (some "curl/8.0") (some 50))
        t2 "/users/U2" 200 (some "curl/8.0") (some 150)).traffic10min.filter
        (fun r => groupEndpoint r.endpoint == "User Data" && r.statusCode == 200)).map
        (fun r => r.hits)).sum = 2
    ∧ (((recordRequest (recordRequest emptyAnalytics t1 "/users/U1" 200 (some "curl/8.0") (some 50))
        t2 "/users/U2" 200 (some "curl/8.0") (some 150)).traffic10min.filter
        (fun r => groupEndpoint r.endpoint == "User Data" && r.statusCode == 200)).map
        (fun r => r.totalResponseTime)).sum = 200
    ∧ ((recordRequest (recordRequest emptyAnalytics t1 "/users/U1" 200 (some "curl/8.0") (some 50))
        t2 "/users/U2" 200 (some "curl/8.0") (some 150)).traffic10min.all
        (fun r => r.bucket == t1 / 1000 - t1 / 1000 % 600)) = true
    ∧ (recordRequest (recordRequest emptyAnalytics t1 "/users/U1" 200 (some "curl/8.0") (some 50))
        t2 "/users/U2" 200 (some "curl/8.0") (some 150)).userAgentStats.map
        (fun u => (u.userAgent, u.hits)) = [("curl/8.0", 2)] := by
  have hne : ¬ (("/users/U1" : String) = "/users/U2") := by decide
  have hne2 : ¬ (("/users/U2" : String) = "/users/U1") := by decide
  have hg1 : groupEndpoint "/users/U1" = "User Data" := by decide
  have hg2 : groupEndpoint "/users/U2" = "User Data" := by decide
  have hie : ("curl/8.0" : String).isEmpty = false := by decide
  refine ⟨?_, ?_, ?_, ?_, ?_, ?_⟩ <;>
    simp [recordRequest, upsertBucket, upsertUA, jsTruthyStr, emptyAnalytics,
      hne, hne2, hg1, hg2, hie, hwin]

/-- C2 witness: concrete timestamps 600000 ms and 900000 ms falling in the
same 10-minute bucket. -/
theorem recordRequest_two_user_endpoints_witness :
    (600000 / 1000 - 600000 / 1000 % 600 = 900000 / 1000 - 900000 / 1000 % 600)
    ∧ ((recordRequest (recordRequest emptyAnalytics 600000 "/users/U1" 200 (some "curl/8.0") (some 50))
        900000 "/users/U2" 200 (some "curl/8.0") (some 150)).userAgentStats.map
        (fun u => (u.userAgent, u.hits)) = [("curl/8.0", 2)]) :=
  ⟨by decide,
   (recordRequest_two_user_endpoints 600000 900000 (by decide)).2.2.2.2.2⟩

/-- C3: a second migration run against a store whose table already records
every known migration applies zero migrations and returns the state — the
migrations table in particular — unchanged. -/
theorem runMigrations_second_run_idempotent {σ : Type} (cv : String)
    (migs : List (Migration σ)) (st : MMState σ)
    (hne : st.table ≠ [])
    (hver : st.table.all (fun rec => !rec.version.isEmpty) = true)
    (happ : migs.all (fun m => isMigrationApplied st.table m.version) = true) :
    (managerRunMigrations cv migs st).1.migrationsApplied = 0
    ∧ (managerRunMigrations cv migs st).2 = st := by
  obtain ⟨r, hr⟩ : ∃ r, getLastApplied st.table = some r := by
    cases hga : getLastApplied st.table with
    | none => exact absurd hga (getLastApplied_ne_none st.table hne)
    | some r => exact ⟨r, rfl⟩
  have hmem := getLastApplied_mem st.table r hr
  have hverr : r.version.isEmpty = false := by
    have := List.all_eq_true.mp hver r hmem
    simpa using this
  have hvs : virtualStep cv st = (st, some r.version) := by
    simp [virtualStep, hr, jsTruthyStr, hverr]
  have hloop : runLoop cv (sortMigrations migs) ⟨st, 0, some r.version⟩
      = Except.ok ⟨st, 0, some r.version⟩ := by
    apply runLoop_all_applied
    intro m hm
    exact List.all_eq_true.mp happ m (mem_sortMigrations m migs hm)
  simp [managerRunMigrations, hvs, hloop]

/-- A migration as registered in Cache.runMigrations, modelled with a
counter store; its up procedure succeeds. -/
def appliedMigration : Migration Nat := ⟨"0.1.0", "endpoint grouping", fun s => Except.ok (s + 1)⟩

/-- A store state in which appliedMigration is already recorded. -/
def migratedState : MMState Nat := ⟨[⟨"0.1.0", 3, "endpoint grouping"⟩], 7, 4⟩

/-- C3 witness: the idempotent second run at a concrete migrated store. -/
theorem runMigrations_second_run_idempotent_witness :
    migratedState.table ≠ []
    ∧ (migratedState.table.all (fun rec => !rec.version.isEmpty) = true)
    ∧ ([appliedMigration].all (fun m => isMigrationApplied migratedState.table m.version) = true)
    ∧ ((managerRunMigrations "1.0.0" [appliedMigration] migratedState).1.migrationsApplied = 0
      ∧ (managerRunMigrations "1.0.0" [appliedMigration] migratedState).2 = migratedState) :=
  ⟨by decide, by decide, by decide,
   runMigrations_second_run_idempotent "1.0.0" [appliedMigration] migratedState
     (by decide) (by decide) (by decide)⟩

end Cachet
